import Mathlib

/-!
Verification of the task-queue server (`server.py`) against its
natural-language specification.

The embedding is shallow: every Python method of `Task`, `TaskQueue`,
`QueueDict` and `TaskQueueServer` becomes a pure Lean function; mutation
becomes explicit state passing; wall-clock time (`time.time()`) becomes an
explicit rational parameter; the pickle snapshot becomes an explicit
encode/decode pair on a concrete tuple representation; network reads for
the ADD payload become a list of already-decoded chunks; an I/O failure of
the snapshot write becomes a boolean success flag.  Python exceptions are
modelled by the `Outcome` type: `ParserError` is the only exception caught
by `server_recv`, everything else escapes the accept loop (which catches
only `KeyboardInterrupt`) and aborts the process.
-/

namespace TaskQ

/-- Model of Python `int()` applied to a float: truncation toward zero. -/
def pyInt (q : ℚ) : ℤ :=
  if 0 ≤ q then q.num / (q.den : ℤ) else -((-q).num / ((-q).den : ℤ))

/-- Python `Task.__init__` fields.  `length` is stored exactly as the token
received on the wire (`params[2]`, a string, never parsed at storage time);
`start_wait_time` is an absolute wall-clock timestamp. -/
structure Task where
  task_id : String
  length : String
  data : String
  timeout : ℤ
  is_waiting : Bool
  start_wait_time : Option ℚ
deriving DecidableEq, Repr

/-- `Task(task_id, length, data, timeout)`: fresh task, not waiting. -/
def Task.init (task_id length data : String) (timeout : ℤ) : Task :=
  ⟨task_id, length, data, timeout, false, none⟩

/-- `Task.update`: lazy visibility refresh.  If the wait timer is running and
`int(now - start) >= timeout`, the task returns to availability. -/
def Task.update (t : Task) (now : ℚ) : Task :=
  match t.start_wait_time with
  | none => t
  | some s =>
      if t.timeout ≤ pyInt (now - s) then
        { t with is_waiting := false, start_wait_time := none }
      else t

/-- `Task.start_wait`: dispatch marker, records the current time. -/
def Task.start_wait (t : Task) (now : ℚ) : Task :=
  { t with is_waiting := true, start_wait_time := some now }

/-- `TaskQueue._tasks` is a Python list; operations below are its methods. -/
def TaskQueue.add_task (q : List Task) (t : Task) : List Task := q ++ [t]

/-- `TaskQueue.get_task`: scan in insertion order, refreshing every visited
task in place; dispatch the first non-waiting one.  Returns the dispatched
task (if any) together with the mutated list. -/
def TaskQueue.get_task : List Task → ℚ → Option Task × List Task
  | [], _ => (none, [])
  | t :: ts, now =>
      let t' := t.update now
      if t'.is_waiting then
        let r := TaskQueue.get_task ts now
        (r.1, t' :: r.2)
      else
        let t'' := t'.start_wait now
        (some t'', t'' :: ts)

/-- `TaskQueue.in_task`: pure linear scan by id, no mutation. -/
def TaskQueue.in_task (q : List Task) (i : String) : Bool :=
  q.any (fun t => t.task_id = i)

/-- `TaskQueue.ack_task`: locate the first task with the given id, refresh
it; delete it and succeed if still waiting, otherwise fail keeping the
(refreshed) task in place. -/
def TaskQueue.ack_task : List Task → String → ℚ → Bool × List Task
  | [], _, _ => (false, [])
  | t :: ts, i, now =>
      if t.task_id = i then
        let t' := t.update now
        if t'.is_waiting then (true, ts) else (false, t' :: ts)
      else
        let r := TaskQueue.ack_task ts i now
        (r.1, t :: r.2)

/-- `QueueDict._queue_dict`: a Python dict, modelled as an association list
with unique keys in insertion order. -/
abbrev QueueDict := List (String × List Task)

def emptyQD : QueueDict := []

/-- Dict membership/lookup (`queue_name in self._queue_dict`). -/
def qlookup : QueueDict → String → Option (List Task)
  | [], _ => none
  | e :: es, n => if e.1 = n then some e.2 else qlookup es n

/-- Dict entry replacement (in-place mutation of the named `TaskQueue`). -/
def qset : QueueDict → String → List Task → QueueDict
  | [], _, _ => []
  | e :: es, n, q => if e.1 = n then (n, q) :: es else e :: qset es n q

/-- `QueueDict.add_task`: lazily create the queue, append, return the id. -/
def QueueDict.add_task (d : QueueDict) (n : String) (t : Task) :
    String × QueueDict :=
  match qlookup d n with
  | some q => (t.task_id, qset d n (TaskQueue.add_task q t))
  | none => (t.task_id, d ++ [(n, [t])])

/-- `QueueDict.get_task`: `b'NONE'` for an unknown queue, else delegate and
encode the dispatched task as `"<id> <length> <data>"` (or `b'NONE'`). -/
def QueueDict.get_task (d : QueueDict) (n : String) (now : ℚ) :
    String × QueueDict :=
  match qlookup d n with
  | none => ("NONE", d)
  | some q =>
      let r := TaskQueue.get_task q now
      match r.1 with
      | some t => (t.task_id ++ " " ++ t.length ++ " " ++ t.data, qset d n r.2)
      | none => ("NONE", qset d n r.2)

/-- `QueueDict.in_task`: `b'ERROR'` for an unknown queue, else YES/NO. -/
def QueueDict.in_task (d : QueueDict) (n i : String) : String :=
  match qlookup d n with
  | none => "ERROR"
  | some q => if TaskQueue.in_task q i then "YES" else "NO"

/-- `QueueDict.ack_task`: `b'ERROR'` for an unknown queue, else YES/NO. -/
def QueueDict.ack_task (d : QueueDict) (n i : String) (now : ℚ) :
    String × QueueDict :=
  match qlookup d n with
  | none => ("ERROR", d)
  | some q =>
      let r := TaskQueue.ack_task q i now
      (if r.1 then "YES" else "NO", qset d n r.2)

/-- One pickled `Task`: the exact tuple of its six fields. -/
abbrev PickledTask := String × String × String × ℤ × Bool × Option ℚ

def Task.pickleFields (t : Task) : PickledTask :=
  (t.task_id, t.length, t.data, t.timeout, t.is_waiting, t.start_wait_time)

def Task.unpickleFields : PickledTask → Task
  | (i, l, d, tmo, w, s) => ⟨i, l, d, tmo, w, s⟩

/-- The on-disk snapshot: `pickle.dump` of the whole dict, modelled as the
field-by-field serialization of every queue and task. -/
abbrev Snapshot := List (String × List PickledTask)

def QueueDict.pickleDump (d : QueueDict) : Snapshot :=
  d.map (fun e => (e.1, e.2.map Task.pickleFields))

def pickleLoad (s : Snapshot) : QueueDict :=
  s.map (fun e => (e.1, e.2.map Task.unpickleFields))

/-- Python exceptions relevant to the handler. -/
inductive PyExn
  | parserError
  | valueError
  | indexError
  | osError
deriving DecidableEq, Repr

/-- `QueueDict.save_to_drive`: writes the pickle of the dict; an I/O failure
while opening or writing raises `OSError` (nothing in the file catches it).
`ioOk` is the success of the underlying file operations. -/
def QueueDict.save_to_drive (d : QueueDict) (ioOk : Bool) :
    Except PyExn (String × Snapshot) :=
  if ioOk then .ok ("OK", QueueDict.pickleDump d) else .error .osError

/-- `QueueDict.init_from_base`: if the snapshot file exists and is non-empty
(`file = some snap`), replace the whole mapping by its unpickling; otherwise
leave the mapping untouched. -/
def QueueDict.init_from_base (d : QueueDict) (file : Option Snapshot) :
    QueueDict :=
  match file with
  | some snap => pickleLoad snap
  | none => d

/-- Result of handling one request: a normal response with the new state, an
uncaught Python exception carrying the state at raise time, or an ADD
handler blocked forever inside its `recv` loop. -/
inductive Outcome
  | ok (resp : String) (st : QueueDict)
  | exn (e : PyExn) (st : QueueDict)
  | blocked
deriving DecidableEq, Repr

/-- Python whitespace as recognized by `str.split()` on the inputs we model. -/
def isPySpace (c : Char) : Bool :=
  c = ' ' || c = '\t' || c = '\n' || c = '\r' ||
  c = Char.ofNat 11 || c = Char.ofNat 12

/-- Worker for `str.split()`: split on whitespace runs, dropping empties. -/
def pySplitGo (acc : List Char) : List Char → List String
  | [] => if acc.isEmpty then [] else [String.mk acc.reverse]
  | c :: cs =>
      if isPySpace c then
        if acc.isEmpty then pySplitGo [] cs
        else String.mk acc.reverse :: pySplitGo [] cs
      else pySplitGo (c :: acc) cs

/-- Python `data.split()` with no separator argument. -/
def pySplit (s : String) : List String := pySplitGo [] s.toList

def isDigitCh (c : Char) : Bool := '0' ≤ c && c ≤ '9'

/-- Accumulate a decimal value over a digit run; `none` on any non-digit. -/
def digitsVal : ℕ → List Char → Option ℕ
  | acc, [] => some acc
  | acc, c :: cs =>
      if isDigitCh c then digitsVal (10 * acc + (c.toNat - '0'.toNat)) cs
      else none

/-- A non-empty all-digit run, else `none`. -/
def parseNatChars (cs : List Char) : Option ℕ :=
  match cs with
  | [] => none
  | _ => digitsVal 0 cs

/-- Strip leading and trailing Python whitespace. -/
def pyStrip (cs : List Char) : List Char :=
  ((cs.dropWhile isPySpace).reverse.dropWhile isPySpace).reverse

/-- Model of Python `int(s)` on a string: optional surrounding whitespace,
optional sign, a non-empty digit run; `ValueError` (here `none`) otherwise. -/
def pyIntParse (s : String) : Option ℤ :=
  match pyStrip s.toList with
  | [] => none
  | c :: rest =>
      if c = '-' then (parseNatChars rest).map (fun n => -(n : ℤ))
      else if c = '+' then (parseNatChars rest).map (fun n => (n : ℤ))
      else (parseNatChars (c :: rest)).map (fun n => (n : ℤ))

/-- The `while len(params[3]) < int(params[2])` loop of `recv_add`: keep
appending received chunks until the payload reaches the declared length;
when the supply of chunks is exhausted the loop never completes (`none`). -/
def recvLoop (cur : String) (need : ℤ) : List String → Option String
  | [] => if (cur.length : ℤ) < need then none else some cur
  | c :: cs =>
      if (cur.length : ℤ) < need then recvLoop (cur ++ c) need cs
      else some cur

namespace TaskQueueServer

/-- `TaskQueueServer.recv_add`.  `fresh` is the uuid4 drawn for this request;
`chunks` are the decoded extra reads from the connection.  Note that
`int(params[2])` is evaluated in the loop condition before any task is
created, so a non-integer length raises `ValueError` with no side effect. -/
def recv_add (timeout : ℤ) (fresh : String) (st : QueueDict)
    (params : List String) (chunks : List String) : Outcome :=
  if params.length ≠ 4 then .exn .parserError st
  else
    let qname := params.getD 1 ""
    let lenTok := params.getD 2 ""
    let payload := params.getD 3 ""
    match pyIntParse lenTok with
    | none => .exn .valueError st
    | some need =>
        match recvLoop payload need chunks with
        | none => .blocked
        | some full =>
            let t := Task.init fresh lenTok full timeout
            let r := QueueDict.add_task st qname t
            .ok r.1 r.2

/-- `TaskQueueServer.recv_get`. -/
def recv_get (st : QueueDict) (params : List String) (now : ℚ) : Outcome :=
  if params.length ≠ 2 then .exn .parserError st
  else
    let r := QueueDict.get_task st (params.getD 1 "") now
    .ok r.1 r.2

/-- `TaskQueueServer.recv_ack`. -/
def recv_ack (st : QueueDict) (params : List String) (now : ℚ) : Outcome :=
  if params.length ≠ 3 then .exn .parserError st
  else
    let r := QueueDict.ack_task st (params.getD 1 "") (params.getD 2 "") now
    .ok r.1 r.2

/-- `TaskQueueServer.recv_in`. -/
def recv_in (st : QueueDict) (params : List String) : Outcome :=
  if params.length ≠ 3 then .exn .parserError st
  else .ok (QueueDict.in_task st (params.getD 1 "") (params.getD 2 "")) st

/-- `TaskQueueServer.save_to_drive`: delegate; an `OSError` from the file
write propagates uncaught. -/
def save_to_drive (st : QueueDict) (params : List String) (ioOk : Bool) :
    Outcome :=
  if params.length ≠ 1 then .exn .parserError st
  else
    match QueueDict.save_to_drive st ioOk with
    | .ok r => .ok r.1 st
    | .error e => .exn e st

/-- `TaskQueueServer.make_answer`: split the request, dispatch on the first
token.  `params[0]` on an empty split raises `IndexError`.  An unmatched
command leaves the initial `answer = b'ERROR'`. -/
def make_answer (timeout : ℤ) (fresh : String) (st : QueueDict) (now : ℚ)
    (data : String) (chunks : List String) (ioOk : Bool) : Outcome :=
  match pySplit data with
  | [] => .exn .indexError st
  | cmd :: rest =>
      let params := cmd :: rest
      if cmd = "ADD" then recv_add timeout fresh st params chunks
      else if cmd = "GET" then recv_get st params now
      else if cmd = "ACK" then recv_ack st params now
      else if cmd = "IN" then recv_in st params
      else if cmd = "SAVE" then save_to_drive st params ioOk
      else .ok "ERROR" st

/-- `TaskQueueServer.server_recv`: the only exception handler around the
dispatcher — `ParserError` becomes the uniform `b'ERROR'` response, every
other exception keeps propagating. -/
def server_recv (timeout : ℤ) (fresh : String) (st : QueueDict) (now : ℚ)
    (data : String) (chunks : List String) (ioOk : Bool) : Outcome :=
  match make_answer timeout fresh st now data chunks ioOk with
  | .exn .parserError st' => .ok "ERROR" st'
  | o => o

end TaskQueueServer

/-- `TaskQueueServer.run` catches only `KeyboardInterrupt` around the accept
loop, so any exception escaping `server_recv` aborts the process. -/
def crashesServer : Outcome → Bool
  | .exn _ _ => true
  | _ => false

/-- The ids stored in a queue, in order. -/
def idsOf (q : List Task) : List String := q.map Task.task_id

/-- Shorthand for the refreshed-to-available task state produced by the
expiry branch of `Task.update`. -/
def Task.unwaited (t : Task) : Task :=
  { t with is_waiting := false, start_wait_time := none }

/-- The queue state after a sequence of GETs at the given times. -/
def getMany (q : List Task) : List ℚ → List Task
  | [] => q
  | v :: vs => getMany (TaskQueue.get_task q v).2 vs

/-- The task-level invariant: the wait timer is set iff the task is waiting. -/
abbrev TaskWF (t : Task) : Prop := t.start_wait_time.isSome = t.is_waiting

/-- All tasks of a queue satisfy the invariant. -/
abbrev QueueWF (q : List Task) : Prop := ∀ t ∈ q, TaskWF t

/-- All queues of the registry satisfy the invariant. -/
abbrev DictWF (d : QueueDict) : Prop := ∀ e ∈ d, QueueWF e.2

/-- A string that `str.split()` treats as one token: non-empty, whitespace
free (e.g. a queue name, or a payload that survives the request line). -/
abbrev tokOK (s : String) : Prop :=
  s.data ≠ [] ∧ ∀ c ∈ s.data, isPySpace c = false

/-- The decimal digit character for a value below ten. -/
def decDigitChar (n : ℕ) : Char := Char.ofNat (48 + n)

/-- Decimal digit string of a natural number, most significant first (the
rendering a client uses for `len(P)` in an ADD request). -/
def decChars (n : ℕ) : List Char :=
  if _ : n < 10 then [decDigitChar n]
  else decChars (n / 10) ++ [decDigitChar (n % 10)]
decreasing_by exact Nat.div_lt_self (by omega) (by omega)

/-- Decimal rendering of a natural number as a string. -/
def decRepr (n : ℕ) : String := String.mk (decChars n)

end TaskQ

set_option allowUnsafeReducibility true

attribute [local semireducible] Rat.sub Rat.add Rat.mul Rat.inv Rat.div Rat.ofScientific

namespace TaskQ

theorem pyInt_eq_floor (q : ℚ) (h : 0 ≤ q) : pyInt q = ⌊q⌋ := by
  rw [pyInt, if_pos h, Rat.floor_def]

theorem pyInt_lt_of_lt (q : ℚ) (z : ℤ) (h0 : 0 ≤ q) (h : q < (z : ℚ)) :
    pyInt q < z := by
  rw [pyInt_eq_floor q h0]
  exact Int.floor_lt.2 h

theorem Task.update_task_id (t : Task) (now : ℚ) :
    (t.update now).task_id = t.task_id := by
  unfold Task.update
  cases t.start_wait_time with
  | none => rfl
  | some s => dsimp only; split <;> rfl

theorem Task.start_wait_task_id (t : Task) (now : ℚ) :
    (t.start_wait now).task_id = t.task_id := rfl

theorem Task.update_waiting_mono (t : Task) (now : ℚ)
    (h : (t.update now).is_waiting = true) : t.is_waiting = true := by
  revert h
  unfold Task.update
  cases t.start_wait_time with
  | none => exact id
  | some s =>
      dsimp only
      split
      · intro h; cases h
      · exact id

theorem Task.update_of_none (t : Task) (now : ℚ)
    (hs : t.start_wait_time = none) : t.update now = t := by
  unfold Task.update; rw [hs]

theorem Task.update_of_not_expired (t : Task) (now s : ℚ)
    (hs : t.start_wait_time = some s) (h : pyInt (now - s) < t.timeout) :
    t.update now = t := by
  unfold Task.update
  rw [hs]
  dsimp only
  rw [if_neg (not_le.2 h)]

theorem Task.update_of_expired (t : Task) (now s : ℚ)
    (hs : t.start_wait_time = some s) (h : t.timeout ≤ pyInt (now - s)) :
    t.update now = t.unwaited := by
  unfold Task.update Task.unwaited
  rw [hs]
  dsimp only
  rw [if_pos h]

theorem TaskQueue.get_task_nil (now : ℚ) :
    TaskQueue.get_task [] now = (none, []) := rfl

theorem TaskQueue.get_task_cons (t : Task) (ts : List Task) (now : ℚ) :
    TaskQueue.get_task (t :: ts) now =
      (if (t.update now).is_waiting then
        ((TaskQueue.get_task ts now).1,
          t.update now :: (TaskQueue.get_task ts now).2)
      else
        (some ((t.update now).start_wait now),
          (t.update now).start_wait now :: ts)) := rfl

theorem TaskQueue.get_task_cons_waiting (t : Task) (ts : List Task) (now : ℚ)
    (h : (t.update now).is_waiting = true) :
    TaskQueue.get_task (t :: ts) now =
      ((TaskQueue.get_task ts now).1,
        t.update now :: (TaskQueue.get_task ts now).2) := by
  rw [TaskQueue.get_task_cons, if_pos h]

theorem TaskQueue.get_task_cons_avail (t : Task) (ts : List Task) (now : ℚ)
    (h : (t.update now).is_waiting = false) :
    TaskQueue.get_task (t :: ts) now =
      (some ((t.update now).start_wait now),
        (t.update now).start_wait now :: ts) := by
  rw [TaskQueue.get_task_cons, if_neg (by rw [h]; exact Bool.false_ne_true)]

theorem TaskQueue.get_task_ids (q : List Task) (now : ℚ) :
    idsOf (TaskQueue.get_task q now).2 = idsOf q := by
  induction q with
  | nil => rfl
  | cons t ts ih =>
      by_cases h : (t.update now).is_waiting = true
      · rw [TaskQueue.get_task_cons_waiting t ts now h]
        simp only [idsOf, List.map_cons] at ih ⊢
        rw [Task.update_task_id, ih]
      · rw [TaskQueue.get_task_cons_avail t ts now (Bool.eq_false_iff.2 h)]
        simp only [idsOf, List.map_cons]
        rw [Task.start_wait_task_id, Task.update_task_id]

theorem TaskQueue.get_task_some (q : List Task) (now : ℚ) (r : Task)
    (h : (TaskQueue.get_task q now).1 = some r) :
    r ∈ (TaskQueue.get_task q now).2 ∧ r.is_waiting = true ∧
      r.start_wait_time = some now := by
  induction q with
  | nil => cases h
  | cons t ts ih =>
      by_cases hw : (t.update now).is_waiting = true
      · rw [TaskQueue.get_task_cons_waiting t ts now hw] at h ⊢
        obtain ⟨h1, h2, h3⟩ := ih h
        exact ⟨List.mem_cons_of_mem _ h1, h2, h3⟩
      · rw [TaskQueue.get_task_cons_avail t ts now (Bool.eq_false_iff.2 hw)] at h ⊢
        have hr : (t.update now).start_wait now = r := by
          injection h
        refine ⟨?_, ?_, ?_⟩
        · rw [← hr]; exact List.mem_cons_self _ _
        · rw [← hr]; rfl
        · rw [← hr]; rfl

theorem TaskQueue.get_task_skips (q : List Task) (now : ℚ) (t r : Task)
    (hnd : (idsOf q).Nodup) (hmem : t ∈ q)
    (hupd : t.update now = t) (hw : t.is_waiting = true)
    (hr : (TaskQueue.get_task q now).1 = some r) :
    r.task_id ≠ t.task_id := by
  induction q with
  | nil => cases hr
  | cons u ts ih =>
      simp only [idsOf, List.map_cons, List.nodup_cons] at hnd
      rcases List.mem_cons.1 hmem with rfl | hts
      · -- the protected task is the head of the scan
        have huw : (t.update now).is_waiting = true := by rw [hupd]; exact hw
        rw [TaskQueue.get_task_cons_waiting t ts now huw] at hr
        obtain ⟨hmem', _, _⟩ := TaskQueue.get_task_some ts now r hr
        have : r.task_id ∈ idsOf (TaskQueue.get_task ts now).2 :=
          List.mem_map_of_mem _ hmem'
        rw [TaskQueue.get_task_ids] at this
        intro hc
        exact hnd.1 (hc ▸ this)
      · by_cases huw : (u.update now).is_waiting = true
        · rw [TaskQueue.get_task_cons_waiting u ts now huw] at hr
          exact ih hnd.2 hts hr
        · rw [TaskQueue.get_task_cons_avail u ts now (Bool.eq_false_iff.2 huw)] at hr
          have hru : r = (u.update now).start_wait now := by
            injection hr with h; exact h.symm
          rw [hru, Task.start_wait_task_id, Task.update_task_id]
          intro hc
          exact hnd.1 (hc ▸ List.mem_map_of_mem _ hts)

theorem TaskQueue.ack_task_cons (t : Task) (ts : List Task) (i : String)
    (now : ℚ) :
    TaskQueue.ack_task (t :: ts) i now =
      (if t.task_id = i then
        (if (t.update now).is_waiting then (true, ts)
         else (false, t.update now :: ts))
      else
        ((TaskQueue.ack_task ts i now).1,
          t :: (TaskQueue.ack_task ts i now).2)) := rfl

theorem TaskQueue.ack_task_cons_miss (t : Task) (ts : List Task) (i : String)
    (now : ℚ) (h : t.task_id ≠ i) :
    TaskQueue.ack_task (t :: ts) i now =
      ((TaskQueue.ack_task ts i now).1,
        t :: (TaskQueue.ack_task ts i now).2) := by
  rw [TaskQueue.ack_task_cons, if_neg h]

theorem TaskQueue.ack_task_cons_hit_waiting (t : Task) (ts : List Task)
    (i : String) (now : ℚ) (h : t.task_id = i)
    (hw : (t.update now).is_waiting = true) :
    TaskQueue.ack_task (t :: ts) i now = (true, ts) := by
  rw [TaskQueue.ack_task_cons, if_pos h, if_pos hw]

theorem TaskQueue.ack_task_cons_hit_stale (t : Task) (ts : List Task)
    (i : String) (now : ℚ) (h : t.task_id = i)
    (hw : (t.update now).is_waiting = false) :
    TaskQueue.ack_task (t :: ts) i now = (false, t.update now :: ts) := by
  rw [TaskQueue.ack_task_cons, if_pos h,
    if_neg (by rw [hw]; exact Bool.false_ne_true)]

theorem TaskQueue.ack_task_not_found (q : List Task) (i : String) (now : ℚ)
    (h : ∀ t ∈ q, t.task_id ≠ i) :
    TaskQueue.ack_task q i now = (false, q) := by
  induction q with
  | nil => rfl
  | cons t ts ih =>
      rw [TaskQueue.ack_task_cons_miss t ts i now (h t (List.mem_cons_self _ _)),
        ih (fun u hu => h u (List.mem_cons_of_mem _ hu))]

theorem TaskQueue.in_task_eq_false (q : List Task) (i : String) :
    TaskQueue.in_task q i = false ↔ ∀ t ∈ q, t.task_id ≠ i := by
  simp [TaskQueue.in_task, List.any_eq_false]

theorem TaskQueue.ack_task_success_iff (q : List Task) (i : String) (now : ℚ)
    (hnd : (idsOf q).Nodup) :
    (TaskQueue.ack_task q i now).1 = true ↔
      ∃ t ∈ q, t.task_id = i ∧ (t.update now).is_waiting = true := by
  induction q with
  | nil => simp [TaskQueue.ack_task]
  | cons u ts ih =>
      simp only [idsOf, List.map_cons, List.nodup_cons] at hnd
      by_cases hu : u.task_id = i
      · by_cases hw : (u.update now).is_waiting = true
        · rw [TaskQueue.ack_task_cons_hit_waiting u ts i now hu hw]
          simp only [true_iff]
          exact ⟨u, List.mem_cons_self _ _, hu, hw⟩
        · rw [TaskQueue.ack_task_cons_hit_stale u ts i now hu
            (Bool.eq_false_iff.2 hw)]
          constructor
          · intro h; cases h
          · rintro ⟨t, hmem, hid, htw⟩
            exfalso
            rcases List.mem_cons.1 hmem with rfl | hts
            · exact hw htw
            · refine hnd.1 ?_
              rw [hu, ← hid]
              exact List.mem_map_of_mem _ hts
      · rw [TaskQueue.ack_task_cons_miss u ts i now hu, ih hnd.2]
        constructor
        · rintro ⟨t, hmem, hid, htw⟩
          exact ⟨t, List.mem_cons_of_mem _ hmem, hid, htw⟩
        · rintro ⟨t, hmem, hid, htw⟩
          rcases List.mem_cons.1 hmem with rfl | hts
          · exact absurd hid hu
          · exact ⟨t, hts, hid, htw⟩

theorem TaskQueue.ack_task_success_removes (q : List Task) (i : String)
    (now : ℚ) (hnd : (idsOf q).Nodup)
    (hs : (TaskQueue.ack_task q i now).1 = true) :
    ∀ t ∈ (TaskQueue.ack_task q i now).2, t.task_id ≠ i := by
  induction q with
  | nil => cases hs
  | cons u ts ih =>
      simp only [idsOf, List.map_cons, List.nodup_cons] at hnd
      by_cases hu : u.task_id = i
      · by_cases hw : (u.update now).is_waiting = true
        · rw [TaskQueue.ack_task_cons_hit_waiting u ts i now hu hw] at hs ⊢
          intro t ht hc
          refine hnd.1 ?_
          rw [hu, ← hc]
          exact List.mem_map_of_mem _ ht
        · rw [TaskQueue.ack_task_cons_hit_stale u ts i now hu
            (Bool.eq_false_iff.2 hw)] at hs
          cases hs
      · rw [TaskQueue.ack_task_cons_miss u ts i now hu] at hs ⊢
        intro t ht
        rcases List.mem_cons.1 ht with rfl | hts
        · exact hu
        · exact ih hnd.2 hs t hts

theorem TaskQueue.ack_task_fail_ids (q : List Task) (i : String) (now : ℚ)
    (hf : (TaskQueue.ack_task q i now).1 = false) :
    idsOf (TaskQueue.ack_task q i now).2 = idsOf q := by
  induction q with
  | nil => rfl
  | cons u ts ih =>
      by_cases hu : u.task_id = i
      · by_cases hw : (u.update now).is_waiting = true
        · rw [TaskQueue.ack_task_cons_hit_waiting u ts i now hu hw] at hf
          cases hf
        · rw [TaskQueue.ack_task_cons_hit_stale u ts i now hu
            (Bool.eq_false_iff.2 hw)]
          simp only [idsOf, List.map_cons]
          rw [Task.update_task_id]
      · rw [TaskQueue.ack_task_cons_miss u ts i now hu] at hf ⊢
        simp only [idsOf, List.map_cons] at ih ⊢
        rw [ih hf]

/-- C1: ACK succeeds iff a task with the given id is present and, after its
lazy refresh, still waiting; on success the task is removed, so an immediate
second ACK fails and IN reports absence; on failure nothing is removed (the
stored ids are unchanged). -/
theorem ack_once_spec (q : List Task) (i : String) (now now₂ : ℚ)
    (hnd : (idsOf q).Nodup) :
    ((TaskQueue.ack_task q i now).1 = true ↔
      ∃ t ∈ q, t.task_id = i ∧ (t.update now).is_waiting = true) ∧
    ((TaskQueue.ack_task q i now).1 = true →
      TaskQueue.in_task (TaskQueue.ack_task q i now).2 i = false ∧
      (TaskQueue.ack_task (TaskQueue.ack_task q i now).2 i now₂).1 = false) ∧
    ((TaskQueue.ack_task q i now).1 = false →
      idsOf (TaskQueue.ack_task q i now).2 = idsOf q) := by
  refine ⟨TaskQueue.ack_task_success_iff q i now hnd, fun hs => ⟨?_, ?_⟩,
    TaskQueue.ack_task_fail_ids q i now⟩
  · exact (TaskQueue.in_task_eq_false _ i).2
      (TaskQueue.ack_task_success_removes q i now hnd hs)
  · rw [TaskQueue.ack_task_not_found _ i now₂
      (TaskQueue.ack_task_success_removes q i now hnd hs)]

/-- Witness for C1 at a concrete queue: one waiting unexpired task. -/
theorem ack_once_spec_witness :
    ((TaskQueue.ack_task [⟨"a", "1", "x", 300, true, some 0⟩] "a" 1).1 = true ↔
      ∃ t ∈ [(⟨"a", "1", "x", 300, true, some 0⟩ : Task)], t.task_id = "a" ∧
        (t.update 1).is_waiting = true) ∧
    ((TaskQueue.ack_task [⟨"a", "1", "x", 300, true, some 0⟩] "a" 1).1 = true →
      TaskQueue.in_task
        (TaskQueue.ack_task [⟨"a", "1", "x", 300, true, some 0⟩] "a" 1).2 "a"
        = false ∧
      (TaskQueue.ack_task
        (TaskQueue.ack_task [⟨"a", "1", "x", 300, true, some 0⟩] "a" 1).2 "a"
        2).1 = false) ∧
    ((TaskQueue.ack_task [⟨"a", "1", "x", 300, true, some 0⟩] "a" 1).1 = false →
      idsOf (TaskQueue.ack_task [⟨"a", "1", "x", 300, true, some 0⟩] "a" 1).2 =
        idsOf [⟨"a", "1", "x", 300, true, some 0⟩]) :=
  ack_once_spec [⟨"a", "1", "x", 300, true, some 0⟩] "a" 1 2 (by decide)

theorem TaskQueue.get_task_mem_preserved (q : List Task) (now : ℚ) (T : Task)
    (hupd : T.update now = T) (hw : T.is_waiting = true) (hmem : T ∈ q) :
    T ∈ (TaskQueue.get_task q now).2 := by
  induction q with
  | nil => cases hmem
  | cons u ts ih =>
      rcases List.mem_cons.1 hmem with rfl | hts
      · have huw : (T.update now).is_waiting = true := by
          rw [hupd]; exact hw
        rw [TaskQueue.get_task_cons_waiting T ts now huw, hupd]
        exact List.mem_cons_self _ _
      · by_cases huw : (u.update now).is_waiting = true
        · rw [TaskQueue.get_task_cons_waiting u ts now huw]
          exact List.mem_cons_of_mem _ (ih hts)
        · rw [TaskQueue.get_task_cons_avail u ts now (Bool.eq_false_iff.2 huw)]
          exact List.mem_cons_of_mem _ hts

theorem getMany_keeps (T : Task) (hw : T.is_waiting = true) (t0 : ℚ)
    (hs : T.start_wait_time = some t0) :
    ∀ (L : List ℚ) (st : List Task),
      (∀ v ∈ L, t0 ≤ v ∧ v - t0 < (T.timeout : ℚ)) →
      T ∈ st → (idsOf st).Nodup →
      T ∈ getMany st L ∧ idsOf (getMany st L) = idsOf st := by
  intro L
  induction L with
  | nil =>
      intro st _ hmem _
      exact ⟨hmem, rfl⟩
  | cons v vs ih =>
      intro st hall hmem hnd
      have hv := hall v (List.mem_cons_self _ _)
      have hupd : T.update v = T :=
        Task.update_of_not_expired T v t0 hs
          (pyInt_lt_of_lt _ _ (by linarith [hv.1]) hv.2)
      have hmem' : T ∈ (TaskQueue.get_task st v).2 :=
        TaskQueue.get_task_mem_preserved st v T hupd hw hmem
      have hids : idsOf (TaskQueue.get_task st v).2 = idsOf st :=
        TaskQueue.get_task_ids st v
      obtain ⟨h1, h2⟩ := ih (TaskQueue.get_task st v).2
        (fun w hwm => hall w (List.mem_cons_of_mem _ hwm)) hmem'
        (by rw [hids]; exact hnd)
      exact ⟨h1, h2.trans hids⟩

/-- C2: once a GET dispatches task T at time t0, no GET of any later chain
of GETs performed while T's visibility window has not elapsed returns a task
with T's id, however many other tasks are dispatched meanwhile. -/
theorem get_visibility_exclusivity (q : List Task) (t0 : ℚ) (T r : Task)
    (L : List ℚ) (u : ℚ)
    (hnd : (idsOf q).Nodup)
    (h1 : (TaskQueue.get_task q t0).1 = some T)
    (hL : ∀ v ∈ L, t0 ≤ v ∧ v - t0 < (T.timeout : ℚ))
    (hu : t0 ≤ u) (hult : u - t0 < (T.timeout : ℚ))
    (hr : (TaskQueue.get_task
      (getMany (TaskQueue.get_task q t0).2 L) u).1 = some r) :
    r.task_id ≠ T.task_id := by
  obtain ⟨hmem0, hw, hs⟩ := TaskQueue.get_task_some q t0 T h1
  obtain ⟨hmemL, hidsL⟩ := getMany_keeps T hw t0 hs L
    (TaskQueue.get_task q t0).2 hL hmem0
    (by rw [TaskQueue.get_task_ids]; exact hnd)
  have hndL : (idsOf (getMany (TaskQueue.get_task q t0).2 L)).Nodup := by
    rw [hidsL, TaskQueue.get_task_ids]
    exact hnd
  have hupd : T.update u = T :=
    Task.update_of_not_expired T u t0 hs
      (pyInt_lt_of_lt _ _ (by linarith) hult)
  exact TaskQueue.get_task_skips _ u T r hndL hmemL hupd hw hr

/-- Witness for C2: three fresh tasks; a GET at time 0 dispatches the first,
an intervening GET at time 1 dispatches the second, and the GET at time 2
returns the third — never the first again. -/
theorem get_visibility_exclusivity_witness :
    (idsOf [Task.init "a" "1" "x" 300, Task.init "b" "1" "y" 300,
      Task.init "c" "1" "z" 300]).Nodup ∧
    (⟨"c", "1", "z", 300, true, some 2⟩ : Task).task_id ≠
      (⟨"a", "1", "x", 300, true, some 0⟩ : Task).task_id :=
  ⟨by decide,
    get_visibility_exclusivity
      [Task.init "a" "1" "x" 300, Task.init "b" "1" "y" 300,
        Task.init "c" "1" "z" 300] 0
      ⟨"a", "1", "x", 300, true, some 0⟩ ⟨"c", "1", "z", 300, true, some 2⟩
      [1] 2
      (by decide) (by decide) (by decide) (by decide) (by decide)
      (by decide)⟩

theorem TaskQueue.ack_task_append_miss (pre rest : List Task) (i : String)
    (now : ℚ) (h : ∀ u ∈ pre, u.task_id ≠ i) :
    TaskQueue.ack_task (pre ++ rest) i now =
      ((TaskQueue.ack_task rest i now).1,
        pre ++ (TaskQueue.ack_task rest i now).2) := by
  induction pre with
  | nil => rfl
  | cons u us ih =>
      rw [List.cons_append,
        TaskQueue.ack_task_cons_miss u (us ++ rest) i now
          (h u (List.mem_cons_self _ _)),
        ih (fun v hv => h v (List.mem_cons_of_mem _ hv))]
      rfl

/-- C9: a failed ACK on a present-but-expired task is not state preserving:
the lazy refresh inside `ack_task` un-waits the task and clears its timer
before failure is reported, and the task is then immediately dispatchable. -/
theorem ack_fail_mutates (pre post : List Task) (t : Task) (s now now₂ : ℚ)
    (hpre : ∀ u ∈ pre, u.task_id ≠ t.task_id)
    (hw : t.is_waiting = true) (hs : t.start_wait_time = some s)
    (hexp : t.timeout ≤ pyInt (now - s)) :
    TaskQueue.ack_task (pre ++ t :: post) t.task_id now =
      (false, pre ++ t.unwaited :: post) ∧
    t.unwaited.update now₂ = t.unwaited ∧
    (TaskQueue.get_task (t.unwaited :: post) now₂).1 =
      some (t.unwaited.start_wait now₂) := by
  have hupd : t.update now = t.unwaited :=
    Task.update_of_expired t now s hs hexp
  have hupd₂ : t.unwaited.update now₂ = t.unwaited :=
    Task.update_of_none _ now₂ rfl
  refine ⟨?_, hupd₂, ?_⟩
  · rw [TaskQueue.ack_task_append_miss pre (t :: post) t.task_id now hpre,
      TaskQueue.ack_task_cons_hit_stale t post t.task_id now rfl
        (by rw [hupd]; rfl)]
    rw [hupd]
  · rw [TaskQueue.get_task_cons_avail _ post now₂ (by rw [hupd₂]; rfl), hupd₂]

theorem TaskWF_init (i l d : String) (tmo : ℤ) :
    TaskWF (Task.init i l d tmo) := rfl

theorem TaskWF_start_wait (t : Task) (now : ℚ) :
    TaskWF (t.start_wait now) := rfl

theorem TaskWF_update (t : Task) (now : ℚ) (h : TaskWF t) :
    TaskWF (t.update now) := by
  cases hs : t.start_wait_time with
  | none => rw [Task.update_of_none t now hs]; exact h
  | some s =>
      by_cases hexp : t.timeout ≤ pyInt (now - s)
      · rw [Task.update_of_expired t now s hs hexp]; rfl
      · rw [Task.update_of_not_expired t now s hs (not_le.1 hexp)]; exact h

theorem Task.update_waiting_iff (t : Task) (now : ℚ) (h : TaskWF t) :
    (t.update now).is_waiting = true ↔
      (t.is_waiting = true ∧
        ∀ s, t.start_wait_time = some s → pyInt (now - s) < t.timeout) := by
  cases hs : t.start_wait_time with
  | none =>
      have hw : t.is_waiting = false := by
        unfold TaskWF at h; rw [hs] at h; exact h.symm
      rw [Task.update_of_none t now hs, hw]
      simp
  | some s =>
      have hw : t.is_waiting = true := by
        unfold TaskWF at h; rw [hs] at h; exact h.symm
      by_cases hexp : t.timeout ≤ pyInt (now - s)
      · rw [Task.update_of_expired t now s hs hexp]
        constructor
        · intro hc
          exact absurd hc (by simp [Task.unwaited])
        · rintro ⟨-, hall⟩
          exact absurd (hall s rfl) (not_lt.2 hexp)
      · rw [Task.update_of_not_expired t now s hs (not_le.1 hexp), hw]
        constructor
        · intro _
          refine ⟨rfl, fun s' heq => ?_⟩
          injection heq with h'
          subst h'
          exact not_le.1 hexp
        · intro _; rfl

theorem QueueWF_add_task (q : List Task) (t : Task) (hq : QueueWF q)
    (ht : TaskWF t) : QueueWF (TaskQueue.add_task q t) := by
  intro u hu
  rcases List.mem_append.1 hu with h | h
  · exact hq u h
  · rw [List.mem_singleton.1 h]; exact ht

theorem QueueWF_get_task (q : List Task) (now : ℚ) (hq : QueueWF q) :
    QueueWF (TaskQueue.get_task q now).2 := by
  induction q with
  | nil => exact hq
  | cons t ts ih =>
      have ht := hq t (List.mem_cons_self _ _)
      have hts : QueueWF ts := fun u hu => hq u (List.mem_cons_of_mem _ hu)
      by_cases hw : (t.update now).is_waiting = true
      · rw [TaskQueue.get_task_cons_waiting t ts now hw]
        intro u hu
        rcases List.mem_cons.1 hu with rfl | h2
        · exact TaskWF_update t now ht
        · exact ih hts u h2
      · rw [TaskQueue.get_task_cons_avail t ts now (Bool.eq_false_iff.2 hw)]
        intro u hu
        rcases List.mem_cons.1 hu with rfl | h2
        · exact TaskWF_start_wait _ _
        · exact hts u h2

theorem QueueWF_ack_task (q : List Task) (i : String) (now : ℚ)
    (hq : QueueWF q) : QueueWF (TaskQueue.ack_task q i now).2 := by
  induction q with
  | nil => exact hq
  | cons u ts ih =>
      have hu := hq u (List.mem_cons_self _ _)
      have hts : QueueWF ts := fun v hv => hq v (List.mem_cons_of_mem _ hv)
      by_cases hid : u.task_id = i
      · by_cases hw : (u.update now).is_waiting = true
        · rw [TaskQueue.ack_task_cons_hit_waiting u ts i now hid hw]
          exact hts
        · rw [TaskQueue.ack_task_cons_hit_stale u ts i now hid
            (Bool.eq_false_iff.2 hw)]
          intro v hv
          rcases List.mem_cons.1 hv with rfl | h2
          · exact TaskWF_update u now hu
          · exact hts v h2
      · rw [TaskQueue.ack_task_cons_miss u ts i now hid]
        intro v hv
        rcases List.mem_cons.1 hv with rfl | h2
        · exact hu
        · exact ih hts v h2

theorem TaskQueue.get_task_enwait (q : List Task) (now : ℚ) :
    ∀ t' ∈ (TaskQueue.get_task q now).2, t'.is_waiting = true →
      (TaskQueue.get_task q now).1 = some t' ∨
        ∃ u ∈ q, u.task_id = t'.task_id ∧ u.is_waiting = true := by
  induction q with
  | nil => intro t' ht'; cases ht'
  | cons t ts ih =>
      by_cases hw : (t.update now).is_waiting = true
      · rw [TaskQueue.get_task_cons_waiting t ts now hw]
        intro t' ht' hne
        rcases List.mem_cons.1 ht' with rfl | h2
        · right
          exact ⟨t, List.mem_cons_self _ _, (Task.update_task_id t now).symm,
            Task.update_waiting_mono t now hw⟩
        · rcases ih t' h2 hne with h | ⟨u, hmem, hid, huw⟩
          · left; exact h
          · right; exact ⟨u, List.mem_cons_of_mem _ hmem, hid, huw⟩
      · rw [TaskQueue.get_task_cons_avail t ts now (Bool.eq_false_iff.2 hw)]
        intro t' ht' hne
        rcases List.mem_cons.1 ht' with rfl | h2
        · left; rfl
        · right; exact ⟨t', List.mem_cons_of_mem _ h2, rfl, hne⟩

theorem TaskQueue.ack_task_enwait (q : List Task) (i : String) (now : ℚ) :
    ∀ t' ∈ (TaskQueue.ack_task q i now).2, t'.is_waiting = true →
      ∃ u ∈ q, u.task_id = t'.task_id ∧ u.is_waiting = true := by
  induction q with
  | nil => intro t' ht'; cases ht'
  | cons u ts ih =>
      by_cases hid : u.task_id = i
      · by_cases hw : (u.update now).is_waiting = true
        · rw [TaskQueue.ack_task_cons_hit_waiting u ts i now hid hw]
          intro t' ht' hne
          exact ⟨t', List.mem_cons_of_mem _ ht', rfl, hne⟩
        · rw [TaskQueue.ack_task_cons_hit_stale u ts i now hid
            (Bool.eq_false_iff.2 hw)]
          intro t' ht' hne
          rcases List.mem_cons.1 ht' with rfl | h2
          · exact ⟨u, List.mem_cons_self _ _, (Task.update_task_id u now).symm,
              Task.update_waiting_mono u now hne⟩
          · exact ⟨t', List.mem_cons_of_mem _ h2, rfl, hne⟩
      · rw [TaskQueue.ack_task_cons_miss u ts i now hid]
        intro t' ht' hne
        rcases List.mem_cons.1 ht' with rfl | h2
        · exact ⟨t', List.mem_cons_self _ _, rfl, hne⟩
        · obtain ⟨v, hv, hvid, hvw⟩ := ih t' h2 hne
          exact ⟨v, List.mem_cons_of_mem _ hv, hvid, hvw⟩

theorem qlookup_cons (e : String × List Task) (es : QueueDict) (n : String) :
    qlookup (e :: es) n = if e.1 = n then some e.2 else qlookup es n := rfl

theorem qset_cons (e : String × List Task) (es : QueueDict) (n : String)
    (q : List Task) :
    qset (e :: es) n q = if e.1 = n then (n, q) :: es else e :: qset es n q :=
  rfl

theorem qlookup_wf (d : QueueDict) (n : String) (q : List Task)
    (hd : DictWF d) (h : qlookup d n = some q) : QueueWF q := by
  induction d with
  | nil => cases h
  | cons e es ih =>
      by_cases he : e.1 = n
      · rw [qlookup_cons, if_pos he] at h
        injection h with h'
        rw [← h']
        exact hd e (List.mem_cons_self _ _)
      · rw [qlookup_cons, if_neg he] at h
        exact ih (fun e' he' => hd e' (List.mem_cons_of_mem _ he')) h

theorem DictWF_qset (d : QueueDict) (n : String) (q : List Task)
    (hd : DictWF d) (hq : QueueWF q) : DictWF (qset d n q) := by
  induction d with
  | nil => exact hd
  | cons e es ih =>
      by_cases he : e.1 = n
      · rw [qset_cons, if_pos he]
        intro e' he'
        rcases List.mem_cons.1 he' with rfl | h2
        · exact hq
        · exact hd e' (List.mem_cons_of_mem _ h2)
      · rw [qset_cons, if_neg he]
        intro e' he'
        rcases List.mem_cons.1 he' with rfl | h2
        · exact hd e' (List.mem_cons_self _ _)
        · exact ih (fun v hv => hd v (List.mem_cons_of_mem _ hv)) e' h2

theorem DictWF_add_task (d : QueueDict) (n : String) (t : Task)
    (hd : DictWF d) (ht : TaskWF t) :
    DictWF (QueueDict.add_task d n t).2 := by
  unfold QueueDict.add_task
  cases hl : qlookup d n with
  | some q =>
      dsimp only
      exact DictWF_qset d n _ hd
        (QueueWF_add_task q t (qlookup_wf d n q hd hl) ht)
  | none =>
      dsimp only
      intro e he
      rcases List.mem_append.1 he with h | h
      · exact hd e h
      · rw [List.mem_singleton.1 h]
        intro u hu
        rw [List.mem_singleton.1 hu]
        exact ht

theorem DictWF_get_task (d : QueueDict) (n : String) (now : ℚ)
    (hd : DictWF d) : DictWF (QueueDict.get_task d n now).2 := by
  unfold QueueDict.get_task
  cases hl : qlookup d n with
  | none => exact hd
  | some q =>
      dsimp only
      have hq := QueueWF_get_task q now (qlookup_wf d n q hd hl)
      cases (TaskQueue.get_task q now).1 with
      | none => exact DictWF_qset d n _ hd hq
      | some t => exact DictWF_qset d n _ hd hq

theorem DictWF_ack_task (d : QueueDict) (n i : String) (now : ℚ)
    (hd : DictWF d) : DictWF (QueueDict.ack_task d n i now).2 := by
  unfold QueueDict.ack_task
  cases hl : qlookup d n with
  | none => exact hd
  | some q =>
      dsimp only
      exact DictWF_qset d n _ hd
        (QueueWF_ack_task q i now (qlookup_wf d n q hd hl))

/-- C8: the wait-timer invariant (`start_wait_time` set iff `is_waiting`)
holds at creation and is preserved by `update`, `start_wait` and every queue
and registry operation; `update` keeps a task waiting exactly while its
window has not expired; a task becomes waiting only as the task dispatched
by `get_task` (`start_wait`), and `ack_task` never makes a task waiting. -/
theorem wait_invariant_spec (t tnew : Task) (q : List Task) (d : QueueDict)
    (i nm idv lv dv : String) (tmo : ℤ) (now : ℚ)
    (ht : TaskWF t) (hq : QueueWF q) (hd : DictWF d) (hnew : TaskWF tnew) :
    (TaskWF (Task.init idv lv dv tmo) ∧
      (Task.init idv lv dv tmo).is_waiting = false) ∧
    TaskWF (t.update now) ∧
    TaskWF (t.start_wait now) ∧
    ((t.update now).is_waiting = true ↔
      (t.is_waiting = true ∧
        ∀ s, t.start_wait_time = some s → pyInt (now - s) < t.timeout)) ∧
    (t.start_wait now).is_waiting = true ∧
    QueueWF (TaskQueue.add_task q tnew) ∧
    QueueWF (TaskQueue.get_task q now).2 ∧
    QueueWF (TaskQueue.ack_task q i now).2 ∧
    (∀ t' ∈ (TaskQueue.get_task q now).2, t'.is_waiting = true →
      (TaskQueue.get_task q now).1 = some t' ∨
        ∃ u ∈ q, u.task_id = t'.task_id ∧ u.is_waiting = true) ∧
    (∀ t' ∈ (TaskQueue.ack_task q i now).2, t'.is_waiting = true →
      ∃ u ∈ q, u.task_id = t'.task_id ∧ u.is_waiting = true) ∧
    DictWF (QueueDict.add_task d nm tnew).2 ∧
    DictWF (QueueDict.get_task d nm now).2 ∧
    DictWF (QueueDict.ack_task d nm i now).2 :=
  ⟨⟨TaskWF_init idv lv dv tmo, rfl⟩,
    TaskWF_update t now ht,
    TaskWF_start_wait t now,
    Task.update_waiting_iff t now ht,
    rfl,
    QueueWF_add_task q tnew hq hnew,
    QueueWF_get_task q now hq,
    QueueWF_ack_task q i now hq,
    TaskQueue.get_task_enwait q now,
    TaskQueue.ack_task_enwait q i now,
    DictWF_add_task d nm tnew hd hnew,
    DictWF_get_task d nm now hd,
    DictWF_ack_task d nm i now hd⟩

/-- Witness for C8 at a concrete state: one waiting and one fresh task. -/
theorem wait_invariant_spec_witness :
    (TaskWF (Task.init "c" "2" "zz" 300) ∧
      (Task.init "c" "2" "zz" 300).is_waiting = false) ∧
    TaskWF ((⟨"a", "1", "x", 300, true, some 0⟩ : Task).update 5) ∧
    TaskWF ((⟨"a", "1", "x", 300, true, some 0⟩ : Task).start_wait 5) ∧
    (((⟨"a", "1", "x", 300, true, some 0⟩ : Task).update 5).is_waiting = true ↔
      ((⟨"a", "1", "x", 300, true, some 0⟩ : Task).is_waiting = true ∧
        ∀ s, (⟨"a", "1", "x", 300, true, some 0⟩ : Task).start_wait_time =
            some s →
          pyInt (5 - s) < (⟨"a", "1", "x", 300, true, some 0⟩ : Task).timeout)) ∧
    ((⟨"a", "1", "x", 300, true, some 0⟩ : Task).start_wait 5).is_waiting
      = true ∧
    QueueWF (TaskQueue.add_task
      [⟨"a", "1", "x", 300, true, some 0⟩, Task.init "b" "1" "y" 300]
      (Task.init "c" "2" "zz" 300)) ∧
    QueueWF (TaskQueue.get_task
      [⟨"a", "1", "x", 300, true, some 0⟩, Task.init "b" "1" "y" 300] 5).2 ∧
    QueueWF (TaskQueue.ack_task
      [⟨"a", "1", "x", 300, true, some 0⟩, Task.init "b" "1" "y" 300] "a"
      5).2 ∧
    (∀ t' ∈ (TaskQueue.get_task
        [⟨"a", "1", "x", 300, true, some 0⟩, Task.init "b" "1" "y" 300] 5).2,
      t'.is_waiting = true →
      (TaskQueue.get_task
        [⟨"a", "1", "x", 300, true, some 0⟩, Task.init "b" "1" "y" 300] 5).1 =
          some t' ∨
        ∃ u ∈ [(⟨"a", "1", "x", 300, true, some 0⟩ : Task),
            Task.init "b" "1" "y" 300],
          u.task_id = t'.task_id ∧ u.is_waiting = true) ∧
    (∀ t' ∈ (TaskQueue.ack_task
        [⟨"a", "1", "x", 300, true, some 0⟩, Task.init "b" "1" "y" 300] "a"
        5).2,
      t'.is_waiting = true →
      ∃ u ∈ [(⟨"a", "1", "x", 300, true, some 0⟩ : Task),
          Task.init "b" "1" "y" 300],
        u.task_id = t'.task_id ∧ u.is_waiting = true) ∧
    DictWF (QueueDict.add_task [("q", [⟨"a", "1", "x", 300, true, some 0⟩])]
      "q" (Task.init "c" "2" "zz" 300)).2 ∧
    DictWF (QueueDict.get_task [("q", [⟨"a", "1", "x", 300, true, some 0⟩])]
      "q" 5).2 ∧
    DictWF (QueueDict.ack_task [("q", [⟨"a", "1", "x", 300, true, some 0⟩])]
      "q" "a" 5).2 :=
  wait_invariant_spec ⟨"a", "1", "x", 300, true, some 0⟩
    (Task.init "c" "2" "zz" 300)
    [⟨"a", "1", "x", 300, true, some 0⟩, Task.init "b" "1" "y" 300]
    [("q", [⟨"a", "1", "x", 300, true, some 0⟩])]
    "a" "q" "c" "2" "zz" 300 5
    (by decide) (by decide) (by decide) (by decide)

/-- Witness for C9: a single expired waiting task; ACK fails yet rewrites
the task, and the very next GET dispatches it. -/
theorem ack_fail_mutates_witness :
    TaskQueue.ack_task [(⟨"a", "1", "x", 300, true, some 0⟩ : Task)] "a" 300 =
      (false, [⟨"a", "1", "x", 300, false, none⟩]) ∧
    (⟨"a", "1", "x", 300, false, none⟩ : Task).update 301 =
      ⟨"a", "1", "x", 300, false, none⟩ ∧
    (TaskQueue.get_task [(⟨"a", "1", "x", 300, false, none⟩ : Task)] 301).1 =
      some ((⟨"a", "1", "x", 300, false, none⟩ : Task).start_wait 301) :=
  ack_fail_mutates [] [] ⟨"a", "1", "x", 300, true, some 0⟩ 0 300 301
    (by decide) (by decide) (by decide) (by decide)

theorem pickle_roundtrip_queue (q : List Task) :
    (q.map Task.pickleFields).map Task.unpickleFields = q := by
  induction q with
  | nil => rfl
  | cons t ts ih =>
      rw [List.map_cons, List.map_cons, ih]
      rfl

theorem pickleLoad_pickleDump (d : QueueDict) :
    pickleLoad (QueueDict.pickleDump d) = d := by
  induction d with
  | nil => rfl
  | cons e es ih =>
      show (e.1, (e.2.map Task.pickleFields).map Task.unpickleFields) ::
          pickleLoad (QueueDict.pickleDump es) = e :: es
      rw [pickle_roundtrip_queue, ih]

/-- C6: a snapshot save followed by a load of the same file restores the
whole queue-name-to-queue-to-task mapping, with every task field — id,
declared length token, payload, timeout, `is_waiting`, and the absolute
`start_wait_time` timestamp — round-tripped exactly. -/
theorem snapshot_roundtrip (d d0 : QueueDict) (t : Task) :
    QueueDict.save_to_drive d true = .ok ("OK", QueueDict.pickleDump d) ∧
    QueueDict.init_from_base d0 (some (QueueDict.pickleDump d)) = d ∧
    Task.unpickleFields (Task.pickleFields t) = t ∧
    (Task.pickleFields t).1 = t.task_id ∧
    (Task.pickleFields t).2.1 = t.length ∧
    (Task.pickleFields t).2.2.1 = t.data ∧
    (Task.pickleFields t).2.2.2.1 = t.timeout ∧
    (Task.pickleFields t).2.2.2.2.1 = t.is_waiting ∧
    (Task.pickleFields t).2.2.2.2.2 = t.start_wait_time :=
  ⟨rfl, pickleLoad_pickleDump d, rfl, rfl, rfl, rfl, rfl, rfl, rfl⟩

/-- C7 (code divergence): when the snapshot write raises `OSError`, the SAVE
request does not produce a non-ok response — the exception is caught nowhere
(`server_recv` catches only `ParserError`, `run` only `KeyboardInterrupt`),
so no response is sent and the process aborts; the in-memory registry at the
raise is unchanged. -/
theorem save_failure_crashes (d : QueueDict) (timeout : ℤ) (fresh : String)
    (now : ℚ) (chunks : List String) :
    TaskQueueServer.server_recv timeout fresh d now "SAVE" chunks false =
      .exn .osError d ∧
    crashesServer (TaskQueueServer.server_recv timeout fresh d now "SAVE"
      chunks false) = true :=
  ⟨rfl, rfl⟩

/-- C3 (counterexample): the unknown-queue responses are not distinct
tokens — IN and ACK on a never-added queue answer with the very `b'ERROR'`
used as the uniform protocol-error response, and GET answers with the very
`b'NONE'` used for "no task available" on a known queue. -/
theorem unknown_queue_not_distinct :
    QueueDict.in_task emptyQD "newq" "x" = "ERROR" ∧
    (QueueDict.ack_task emptyQD "newq" "x" 0).1 = "ERROR" ∧
    (QueueDict.get_task emptyQD "newq" 0).1 = "NONE" ∧
    TaskQueueServer.server_recv 300 "f" emptyQD 0 "BOGUS" [] true =
      .ok "ERROR" emptyQD ∧
    (QueueDict.get_task [("p", ([] : List Task))] "p" 0).1 = "NONE" :=
  ⟨rfl, rfl, rfl, rfl, rfl⟩

/-- C3 (amended): GET, IN and ACK on a queue name never used by ADD never
crash and leave the registry unchanged, but their responses are not
distinct: GET answers `b'NONE'` (the same token as "no task available") and
IN/ACK answer `b'ERROR'` (the same token as the uniform protocol error). -/
theorem unknown_queue_responses (d : QueueDict) (n i : String) (now : ℚ)
    (h : qlookup d n = none) :
    QueueDict.get_task d n now = ("NONE", d) ∧
    QueueDict.in_task d n i = "ERROR" ∧
    QueueDict.ack_task d n i now = ("ERROR", d) ∧
    TaskQueueServer.recv_get d ["GET", n] now = .ok "NONE" d ∧
    TaskQueueServer.recv_in d ["IN", n, i] = .ok "ERROR" d ∧
    TaskQueueServer.recv_ack d ["ACK", n, i] now = .ok "ERROR" d := by
  have h1 : QueueDict.get_task d n now = ("NONE", d) := by
    unfold QueueDict.get_task; rw [h]
  have h2 : QueueDict.in_task d n i = "ERROR" := by
    unfold QueueDict.in_task; rw [h]
  have h3 : QueueDict.ack_task d n i now = ("ERROR", d) := by
    unfold QueueDict.ack_task; rw [h]
  refine ⟨h1, h2, h3, ?_, ?_, ?_⟩
  · have e1 : TaskQueueServer.recv_get d ["GET", n] now =
        .ok (QueueDict.get_task d n now).1 (QueueDict.get_task d n now).2 :=
      rfl
    rw [e1, h1]
  · have e2 : TaskQueueServer.recv_in d ["IN", n, i] =
        .ok (QueueDict.in_task d n i) d := rfl
    rw [e2, h2]
  · have e3 : TaskQueueServer.recv_ack d ["ACK", n, i] now =
        .ok (QueueDict.ack_task d n i now).1
          (QueueDict.ack_task d n i now).2 := rfl
    rw [e3, h3]

/-- Witness for C3 (amended) at the empty registry. -/
theorem unknown_queue_responses_witness :
    QueueDict.get_task emptyQD "q" 0 = ("NONE", emptyQD) ∧
    QueueDict.in_task emptyQD "q" "x" = "ERROR" ∧
    QueueDict.ack_task emptyQD "q" "x" 0 = ("ERROR", emptyQD) ∧
    TaskQueueServer.recv_get emptyQD ["GET", "q"] 0 = .ok "NONE" emptyQD ∧
    TaskQueueServer.recv_in emptyQD ["IN", "q", "x"] = .ok "ERROR" emptyQD ∧
    TaskQueueServer.recv_ack emptyQD ["ACK", "q", "x"] 0 =
      .ok "ERROR" emptyQD :=
  unknown_queue_responses emptyQD "q" "x" 0 (by decide)

/-- C4 (code divergence): an empty (or all-whitespace) request raises an
uncaught `IndexError` at `params[0]`, and an ADD whose declared length is
not an integer raises an uncaught `ValueError`; both abort the process
instead of producing the uniform error response.  Wrong arity and unknown
commands do return `b'ERROR'` with no task created. -/
theorem malformed_request_crashes :
    TaskQueueServer.server_recv 300 "f" emptyQD 0 "" [] true =
      .exn .indexError emptyQD ∧
    TaskQueueServer.server_recv 300 "f" emptyQD 0 " " [] true =
      .exn .indexError emptyQD ∧
    TaskQueueServer.server_recv 300 "f" emptyQD 0 "ADD q x abc" [] true =
      .exn .valueError emptyQD ∧
    crashesServer (TaskQueueServer.server_recv 300 "f" emptyQD 0 "" [] true) =
      true ∧
    crashesServer (TaskQueueServer.server_recv 300 "f" emptyQD 0
      "ADD q x abc" [] true) = true ∧
    TaskQueueServer.server_recv 300 "f" emptyQD 0 "BOGUS a" [] true =
      .ok "ERROR" emptyQD ∧
    TaskQueueServer.server_recv 300 "f" emptyQD 0 "ADD q 1" [] true =
      .ok "ERROR" emptyQD ∧
    TaskQueueServer.server_recv 300 "f" emptyQD 0 "GET" [] true =
      .ok "ERROR" emptyQD := by
  decide

theorem stringMk_data (s : String) : String.mk s.data = s := rfl

theorem pySplitGo_nil (acc : List Char) :
    pySplitGo acc [] =
      if acc.isEmpty then [] else [String.mk acc.reverse] := rfl

theorem pySplitGo_cons (acc : List Char) (c : Char) (cs : List Char) :
    pySplitGo acc (c :: cs) =
      if isPySpace c then
        (if acc.isEmpty then pySplitGo [] cs
         else String.mk acc.reverse :: pySplitGo [] cs)
      else pySplitGo (c :: acc) cs := rfl

theorem pySplitGo_nonspace (t : List Char)
    (ht : ∀ c ∈ t, isPySpace c = false) :
    ∀ acc rest, pySplitGo acc (t ++ rest) = pySplitGo (t.reverse ++ acc) rest
    := by
  induction t with
  | nil => intro acc rest; rfl
  | cons c cs ih =>
      intro acc rest
      rw [List.cons_append, pySplitGo_cons, ht c (List.mem_cons_self _ _),
        if_neg Bool.false_ne_true,
        ih (fun x hx => ht x (List.mem_cons_of_mem _ hx)) (c :: acc) rest,
        List.reverse_cons, List.append_assoc]
      rfl

theorem pySplitGo_token (t : String) (ht : tokOK t) (rest : List Char) :
    pySplitGo [] (t.data ++ ' ' :: rest) = t :: pySplitGo [] rest := by
  rw [pySplitGo_nonspace t.data ht.2 [] (' ' :: rest), List.append_nil,
    pySplitGo_cons]
  have hne : (t.data.reverse).isEmpty = false := by
    cases hr : t.data.reverse with
    | nil => exact absurd (List.reverse_eq_nil_iff.1 hr) ht.1
    | cons a as => rfl
  rw [show isPySpace ' ' = true from rfl, if_pos rfl, hne,
    if_neg Bool.false_ne_true, List.reverse_reverse, stringMk_data]

theorem pySplitGo_last (t : String) (ht : tokOK t) :
    pySplitGo [] t.data = [t] := by
  have h := pySplitGo_nonspace t.data ht.2 [] []
  rw [List.append_nil] at h
  rw [h, List.append_nil, pySplitGo_nil]
  have hne : (t.data.reverse).isEmpty = false := by
    cases hr : t.data.reverse with
    | nil => exact absurd (List.reverse_eq_nil_iff.1 hr) ht.1
    | cons a as => rfl
  rw [hne, if_neg Bool.false_ne_true, List.reverse_reverse, stringMk_data]

theorem pySplit_four (a b c d : String) (ha : tokOK a) (hb : tokOK b)
    (hc : tokOK c) (hd : tokOK d) :
    pySplit (a ++ " " ++ b ++ " " ++ c ++ " " ++ d) = [a, b, c, d] := by
  unfold pySplit
  have hdata : (a ++ " " ++ b ++ " " ++ c ++ " " ++ d).toList =
      a.data ++ ' ' :: (b.data ++ ' ' :: (c.data ++ ' ' :: d.data)) := by
    show (a ++ " " ++ b ++ " " ++ c ++ " " ++ d).data = _
    rw [String.data_append, String.data_append, String.data_append,
      String.data_append, String.data_append]
    rw [show (" " : String).data = [' '] from rfl]
    simp [List.append_assoc]
  rw [hdata, pySplitGo_token a ha, pySplitGo_token b hb, pySplitGo_token c hc,
    pySplitGo_last d hd]

theorem pySplit_two (a b : String) (ha : tokOK a) (hb : tokOK b) :
    pySplit (a ++ " " ++ b) = [a, b] := by
  unfold pySplit
  have hdata : (a ++ " " ++ b).toList = a.data ++ ' ' :: b.data := by
    show (a ++ " " ++ b).data = _
    rw [String.data_append, String.data_append,
      show (" " : String).data = [' '] from rfl]
    simp [List.append_assoc]
  rw [hdata, pySplitGo_token a ha, pySplitGo_last b hb]

theorem decDigit_facts : ∀ k, k < 10 →
    isDigitCh (decDigitChar k) = true ∧
    (decDigitChar k).toNat - '0'.toNat = k ∧
    isPySpace (decDigitChar k) = false := by decide

theorem decChars_digits (n : ℕ) : ∀ c ∈ decChars n, isDigitCh c = true := by
  induction n using Nat.strong_induction_on with
  | _ n ih =>
      unfold decChars
      split
      · next h =>
          intro c hcm
          rw [List.mem_singleton.1 hcm]
          exact (decDigit_facts n h).1
      · next h =>
          intro c hcm
          rcases List.mem_append.1 hcm with h1 | h2
          · exact ih (n / 10) (Nat.div_lt_self (by omega) (by omega)) c h1
          · rw [List.mem_singleton.1 h2]
            exact (decDigit_facts (n % 10) (Nat.mod_lt _ (by omega))).1

theorem decChars_ne_nil (n : ℕ) : decChars n ≠ [] := by
  unfold decChars
  split
  · simp
  · simp

theorem digitsVal_cons (acc : ℕ) (c : Char) (cs : List Char) :
    digitsVal acc (c :: cs) =
      if isDigitCh c then digitsVal (10 * acc + (c.toNat - '0'.toNat)) cs
      else none := rfl

theorem digitsVal_append (acc : ℕ) (xs ys : List Char) :
    digitsVal acc (xs ++ ys) =
      (digitsVal acc xs).bind (fun v => digitsVal v ys) := by
  induction xs generalizing acc with
  | nil => rfl
  | cons c cs ih =>
      rw [List.cons_append, digitsVal_cons, digitsVal_cons]
      cases hc : isDigitCh c
      · rfl
      · rw [if_pos rfl, if_pos rfl]
        exact ih _

theorem decVal (n : ℕ) : digitsVal 0 (decChars n) = some n := by
  induction n using Nat.strong_induction_on with
  | _ n ih =>
      unfold decChars
      split
      · next h =>
          rw [digitsVal_cons, (decDigit_facts n h).1, if_pos rfl]
          show some (10 * 0 + ((decDigitChar n).toNat - '0'.toNat)) = some n
          rw [(decDigit_facts n h).2.1]
          congr 1
          omega
      · next h =>
          rw [digitsVal_append, ih (n / 10)
            (Nat.div_lt_self (by omega) (by omega))]
          show digitsVal (n / 10) [decDigitChar (n % 10)] = some n
          rw [digitsVal_cons,
            (decDigit_facts (n % 10) (Nat.mod_lt _ (by omega))).1, if_pos rfl]
          show some (10 * (n / 10) +
            ((decDigitChar (n % 10)).toNat - '0'.toNat)) = some n
          rw [(decDigit_facts (n % 10) (Nat.mod_lt _ (by omega))).2.1]
          congr 1
          omega

theorem dropWhile_nonspace (cs : List Char)
    (h : ∀ c ∈ cs, isPySpace c = false) :
    cs.dropWhile isPySpace = cs := by
  cases cs with
  | nil => rfl
  | cons c cs' =>
      rw [List.dropWhile_cons, h c (List.mem_cons_self _ _)]
      rw [if_neg Bool.false_ne_true]

theorem pyStrip_nonspace (cs : List Char)
    (h : ∀ c ∈ cs, isPySpace c = false) : pyStrip cs = cs := by
  unfold pyStrip
  rw [dropWhile_nonspace cs h,
    dropWhile_nonspace _ (fun c hc => h c (List.mem_reverse.1 hc)),
    List.reverse_reverse]

theorem isDigit_not_space (c : Char) (h : isDigitCh c = true) :
    isPySpace c = false := by
  cases hsp : isPySpace c
  · rfl
  · exfalso
    unfold isPySpace at hsp
    simp only [Bool.or_eq_true, decide_eq_true_eq] at hsp
    rcases hsp with ((((h' | h') | h') | h') | h') | h' <;>
      (subst h'; exact absurd h (by decide))

theorem digit_ne_sign (c : Char) (h : isDigitCh c = true) :
    ¬(c = '-') ∧ ¬(c = '+') := by
  constructor <;> intro he <;> subst he <;> exact absurd h (by decide)

theorem pyIntParse_decRepr (n : ℕ) : pyIntParse (decRepr n) = some (n : ℤ)
    := by
  unfold pyIntParse decRepr
  rw [show (String.mk (decChars n)).toList = decChars n from rfl,
    pyStrip_nonspace _
      (fun c hc => isDigit_not_space c (decChars_digits n c hc))]
  cases hd : decChars n with
  | nil => exact absurd hd (decChars_ne_nil n)
  | cons c rest =>
      have hcd : isDigitCh c = true := by
        refine decChars_digits n c ?_
        rw [hd]
        exact List.mem_cons_self _ _
      dsimp only
      rw [if_neg (digit_ne_sign c hcd).1, if_neg (digit_ne_sign c hcd).2,
        show parseNatChars (c :: rest) = digitsVal 0 (c :: rest) from rfl,
        ← hd, decVal n]
      rfl

theorem recv_add_params (timeout : ℤ) (fresh qn lenTok payload : String)
    (st : QueueDict) (chunks : List String) :
    TaskQueueServer.recv_add timeout fresh st
      [("ADD" : String), qn, lenTok, payload] chunks =
      (match pyIntParse lenTok with
       | none => .exn .valueError st
       | some need =>
         match recvLoop payload need chunks with
         | none => .blocked
         | some full =>
           .ok (QueueDict.add_task st qn
              (Task.init fresh lenTok full timeout)).1
             (QueueDict.add_task st qn
              (Task.init fresh lenTok full timeout)).2) := rfl

theorem recv_get_params (st : QueueDict) (qn : String) (now : ℚ) :
    TaskQueueServer.recv_get st [("GET" : String), qn] now =
      .ok (QueueDict.get_task st qn now).1 (QueueDict.get_task st qn now).2 :=
  rfl

theorem QueueDict.add_task_fst (d : QueueDict) (n : String) (t : Task) :
    (QueueDict.add_task d n t).1 = t.task_id := by
  unfold QueueDict.add_task
  cases qlookup d n <;> rfl

theorem recvLoop_some_length (need : ℤ) (chunks : List String) :
    ∀ cur full : String, recvLoop cur need chunks = some full →
      need ≤ (full.length : ℤ) := by
  induction chunks with
  | nil =>
      intro cur full h
      unfold recvLoop at h
      by_cases hc : (cur.length : ℤ) < need
      · rw [if_pos hc] at h; cases h
      · rw [if_neg hc] at h
        injection h with h'
        rw [← h']
        exact not_lt.1 hc
  | cons c cs ih =>
      intro cur full h
      unfold recvLoop at h
      by_cases hc : (cur.length : ℤ) < need
      · rw [if_pos hc] at h
        exact ih (cur ++ c) full h
      · rw [if_neg hc] at h
        injection h with h'
        rw [← h']
        exact not_lt.1 hc

/-- C10: when ADD completes, the declared-length token is stored unparsed
and echoed verbatim by GET, and the accumulated payload is only guaranteed
to be at least that many characters — it can exceed the declared length, in
which case the length reported by GET differs from the payload's length. -/
theorem add_length_token_verbatim (timeout : ℤ)
    (fresh qn lenTok payload ans : String) (chunks : List String)
    (st st' : QueueDict) (need : ℤ)
    (hparse : pyIntParse lenTok = some need)
    (hrun : TaskQueueServer.recv_add timeout fresh st
      [("ADD" : String), qn, lenTok, payload] chunks = .ok ans st') :
    (∃ full : String,
      recvLoop payload need chunks = some full ∧
      need ≤ (full.length : ℤ) ∧
      ans = fresh ∧
      st' = (QueueDict.add_task st qn
        (Task.init fresh lenTok full timeout)).2) ∧
    TaskQueueServer.recv_add 300 "i0" emptyQD
      [("ADD" : String), "q", "3", "ab"] ["cdef"] =
      .ok "i0" [("q", [Task.init "i0" "3" "abcdef" 300])] ∧
    (QueueDict.get_task [("q", [Task.init "i0" "3" "abcdef" 300])] "q" 0).1 =
      "i0 3 abcdef" ∧
    ("abcdef".length : ℤ) = 6 ∧ pyIntParse "3" = some 3 ∧ (3 : ℤ) ≠ 6 := by
  refine ⟨?_, by decide, by decide, by decide, by decide, by decide⟩
  rw [recv_add_params, hparse] at hrun
  have hrun2 : (match recvLoop payload need chunks with
      | none => Outcome.blocked
      | some f =>
        Outcome.ok (QueueDict.add_task st qn
            (Task.init fresh lenTok f timeout)).1
          (QueueDict.add_task st qn
            (Task.init fresh lenTok f timeout)).2) =
      Outcome.ok ans st' := hrun
  cases hloop : recvLoop payload need chunks with
  | none => rw [hloop] at hrun2; cases hrun2
  | some full =>
      rw [hloop] at hrun2
      injection hrun2 with ha hs
      refine ⟨full, rfl, recvLoop_some_length need chunks payload full hloop,
        ?_, hs.symm⟩
      rw [← ha, QueueDict.add_task_fst]
      rfl

/-- Witness for C10: ADD declares length 5, the first read carries "abc",
one further chunk "de" completes it. -/
theorem add_length_token_verbatim_witness :
    (∃ full : String,
      recvLoop "abc" 5 ["de"] = some full ∧
      (5 : ℤ) ≤ (full.length : ℤ) ∧
      ("f" : String) = "f" ∧
      ([("q", [Task.init "f" "5" "abcde" 300])] : QueueDict) =
        (QueueDict.add_task emptyQD "q"
          (Task.init "f" "5" full 300)).2) ∧
    TaskQueueServer.recv_add 300 "i0" emptyQD
      [("ADD" : String), "q", "3", "ab"] ["cdef"] =
      .ok "i0" [("q", [Task.init "i0" "3" "abcdef" 300])] ∧
    (QueueDict.get_task [("q", [Task.init "i0" "3" "abcdef" 300])] "q" 0).1 =
      "i0 3 abcdef" ∧
    ("abcdef".length : ℤ) = 6 ∧ pyIntParse "3" = some 3 ∧ (3 : ℤ) ≠ 6 :=
  add_length_token_verbatim 300 "f" "q" "5" "abc" "f" ["de"] emptyQD
    [("q", [Task.init "f" "5" "abcde" 300])] 5 (by decide) (by decide)

/-- C5 (counterexample): with payload "a b" (declared length 3) the request
line splits into five tokens, so the ADD is rejected with the uniform error
and creates nothing; the following GET answers the none sentinel instead of
"<id> 3 a b". -/
theorem roundtrip_fails_on_spaced_payload :
    TaskQueueServer.server_recv 300 "id0" emptyQD 0 "ADD q 3 a b" [] true =
      .ok "ERROR" emptyQD ∧
    TaskQueueServer.server_recv 300 "id1" emptyQD 0 "GET q" [] true =
      .ok "NONE" emptyQD ∧
    ("NONE" : String) ≠ "id0" ++ " " ++ "3" ++ " " ++ "a b" := by
  decide

/-- C5 (amended): for queue names and payloads that are single non-empty
whitespace-free tokens, `ADD Q len(P) P` from the empty registry returns the
fresh id and the following `GET Q` returns `"<id> len(P) P"` with the same
id. -/
theorem add_get_roundtrip (Q P fresh fresh2 : String) (timeout : ℤ)
    (now now2 : ℚ) (hQ : tokOK Q) (hP : tokOK P) :
    ∃ st1 st2 : QueueDict,
      TaskQueueServer.server_recv timeout fresh emptyQD now
        ("ADD" ++ " " ++ Q ++ " " ++ decRepr P.length ++ " " ++ P) [] true =
        .ok fresh st1 ∧
      TaskQueueServer.server_recv timeout fresh2 st1 now2
        ("GET" ++ " " ++ Q) [] true =
        .ok (fresh ++ " " ++ decRepr P.length ++ " " ++ P) st2 := by
  have hL : tokOK (decRepr P.length) :=
    ⟨decChars_ne_nil _,
      fun c hc => isDigit_not_space c (decChars_digits _ c hc)⟩
  have hsplit1 : pySplit
      ("ADD" ++ " " ++ Q ++ " " ++ decRepr P.length ++ " " ++ P) =
      ["ADD", Q, decRepr P.length, P] :=
    pySplit_four "ADD" Q (decRepr P.length) P (by decide) hQ hL hP
  have hsplit2 : pySplit ("GET" ++ " " ++ Q) = ["GET", Q] :=
    pySplit_two "GET" Q (by decide) hQ
  have hloop : recvLoop P ((P.length : ℕ) : ℤ) [] = some P := by
    unfold recvLoop
    rw [if_neg (lt_irrefl _)]
  have hadd : TaskQueueServer.recv_add timeout fresh emptyQD
      ["ADD", Q, decRepr P.length, P] [] =
      .ok fresh [(Q, [Task.init fresh (decRepr P.length) P timeout])] := by
    rw [recv_add_params, pyIntParse_decRepr]
    have hstep : (match recvLoop P ((P.length : ℕ) : ℤ) [] with
        | none => Outcome.blocked
        | some f =>
          Outcome.ok (QueueDict.add_task emptyQD Q
              (Task.init fresh (decRepr P.length) f timeout)).1
            (QueueDict.add_task emptyQD Q
              (Task.init fresh (decRepr P.length) f timeout)).2) =
        Outcome.ok fresh
          [(Q, [Task.init fresh (decRepr P.length) P timeout])] := by
      rw [hloop]
      rfl
    exact hstep
  have hget : QueueDict.get_task
      [(Q, [Task.init fresh (decRepr P.length) P timeout])] Q now2 =
      (fresh ++ " " ++ decRepr P.length ++ " " ++ P,
        [(Q, [(Task.init fresh (decRepr P.length) P timeout).start_wait
          now2])]) := by
    unfold QueueDict.get_task
    rw [show qlookup [(Q, [Task.init fresh (decRepr P.length) P timeout])] Q
      = some [Task.init fresh (decRepr P.length) P timeout] from by
        rw [qlookup_cons, if_pos rfl]]
    dsimp only
    rw [TaskQueue.get_task_cons_avail
      (Task.init fresh (decRepr P.length) P timeout) [] now2
      (by rw [Task.update_of_none _ now2 rfl]; rfl)]
    rw [Task.update_of_none _ now2 rfl]
    dsimp only
    rw [qset_cons, if_pos rfl]
    rfl
  refine ⟨[(Q, [Task.init fresh (decRepr P.length) P timeout])],
    [(Q, [(Task.init fresh (decRepr P.length) P timeout).start_wait now2])],
    ?_, ?_⟩
  · have hmk : TaskQueueServer.make_answer timeout fresh emptyQD now
        ("ADD" ++ " " ++ Q ++ " " ++ decRepr P.length ++ " " ++ P) [] true =
        .ok fresh [(Q, [Task.init fresh (decRepr P.length) P timeout])] := by
      unfold TaskQueueServer.make_answer
      rw [hsplit1]
      dsimp only
      rw [if_pos rfl, hadd]
    unfold TaskQueueServer.server_recv
    rw [hmk]
  · have hmk : TaskQueueServer.make_answer timeout fresh2
        [(Q, [Task.init fresh (decRepr P.length) P timeout])] now2
        ("GET" ++ " " ++ Q) [] true =
        .ok (fresh ++ " " ++ decRepr P.length ++ " " ++ P)
          [(Q, [(Task.init fresh (decRepr P.length) P timeout).start_wait
            now2])] := by
      unfold TaskQueueServer.make_answer
      rw [hsplit2]
      dsimp only
      rw [if_neg (by decide), if_pos rfl, recv_get_params, hget]
    unfold TaskQueueServer.server_recv
    rw [hmk]

/-- Witness for C5 (amended): queue "q1", payload "hello". -/
theorem add_get_roundtrip_witness :
    ∃ st1 st2 : QueueDict,
      TaskQueueServer.server_recv 300 "id0" emptyQD 0
        ("ADD" ++ " " ++ "q1" ++ " " ++ decRepr ("hello" : String).length ++
          " " ++ "hello") [] true = .ok "id0" st1 ∧
      TaskQueueServer.server_recv 300 "id1" st1 1
        ("GET" ++ " " ++ "q1") [] true =
        .ok ("id0" ++ " " ++ decRepr ("hello" : String).length ++ " " ++
          "hello") st2 :=
  add_get_roundtrip "q1" "hello" "id0" "id1" 300 0 1 (by decide) (by decide)

end TaskQ
